import Mathlib

/-!
Shallow embedding of the zff header/footer codec core (the `zff` Rust crate:
`src/lib/header/{chunk_header,compression_header,segment_header,encryption_header}.rs`,
`src/lib/version2/footer/main_footer.rs`, `src/lib/constants.rs`).

Bytes are modelled as `Nat` values (with the invariant `< 256` carried as
hypotheses where a statement needs it), byte strings as `List Nat`, machine
integers as `Nat`/`Int` with explicit `% 2 ^ w` where overflow matters, and
fallible operations as `Except ZffError`.

Parts of the crate that the claims depend on but that are not part of the
excerpted sources (the `ValueEncoder`/`ValueDecoder` primitive codec, the
`HeaderEncoder`/`HeaderDecoder`/`HeaderCoding` envelope defaults, the
`PBEHeader` wire format and the `Encryption::decrypt_pbkdf2sha256_*`
primitives) are modelled from the specification and are marked
`Modelled from the spec:` in their doc comments.
-/

namespace Zff

/-! ## Primitive value codec -/

/-- Little-endian fixed-width byte encoding of a natural number; models the
Rust `to_le_bytes()` calls of the unsigned integer `ValueEncoder` impls
(value codec: fixed-width integers are little-endian, fixed byte width). -/
def leBytes : Nat → Nat → List Nat
  | 0, _ => []
  | w + 1, n => n % 256 :: leBytes w (n / 256)

/-- Little-endian reassembly of a byte list into a natural number; models
`from_le_bytes()` on the decode side of the value codec. -/
def fromLEBytes : List Nat → Nat
  | [] => 0
  | b :: r => b + 256 * fromLEBytes r

/-- Big-endian 4-byte encoding; models `u32::to_be_bytes()` used for the
record envelope's magic identifier. -/
def beBytes32 (n : Nat) : List Nat := (leBytes 4 n).reverse

/-- Error type; models the `ZffError` kinds this core surfaces: short reads
at the byte-cursor level, header-decoder errors with a message, envelope
identifier mismatches, and the single opaque decryption-failure kind. -/
inductive ZffError where
  | ioUnexpectedEof : ZffError
  | headerDecodeError : String → ZffError
  | mismatchIdentifier : ZffError
  | decryptionError : ZffError
deriving DecidableEq

/-! ## Constants (from `src/lib/constants.rs`) -/

def HEADER_IDENTIFIER_SEGMENT_HEADER : Nat := 0x7A666673
def HEADER_IDENTIFIER_COMPRESSION_HEADER : Nat := 0x7A666663
def HEADER_IDENTIFIER_PBE_HEADER : Nat := 0x7A666670
def HEADER_IDENTIFIER_ENCRYPTION_HEADER : Nat := 0x7A666665
def HEADER_IDENTIFIER_CHUNK_HEADER : Nat := 0x7A666643
def FOOTER_IDENTIFIER_MAIN_FOOTER : Nat := 0x7A66664D

def ERROR_HEADER_DECODER_UNKNOWN_ENCRYPTION_ALGORITHM : String :=
  "Unknown encryption algorithm value."
def ERROR_HEADER_DECODER_COMPRESSION_ALGORITHM : String :=
  "unknown compression algorithm value"
def ERROR_HEADER_DECODER_UNKNOWN_KDF_SCHEME : String :=
  "Unknown KDF scheme value."
def ERROR_HEADER_DECODER_UNKNOWN_PBE_SCHEME : String :=
  "Unknown PBEncryption scheme value."

/-! ## Primitive decoders

Modelled from the spec: the `ValueDecoder` impls are not part of the
excerpted sources. Per the value-codec contract, every primitive decode
operates on a forward-only cursor (here: consuming a prefix of a
`List Nat` and returning the rest) and fails with an `UnexpectedEof`-class
error when the cursor is exhausted early. -/

/-- Modelled from the spec: `u8::decode_directly` — reads one byte. -/
def decode_u8 : List Nat → Except ZffError (Nat × List Nat)
  | [] => Except.error ZffError.ioUnexpectedEof
  | b :: r => Except.ok (b, r)

/-- Modelled from the spec: a `read_exact`-style read of `w` raw bytes
from the cursor. -/
def read_bytes (w : Nat) (data : List Nat) : Except ZffError (List Nat × List Nat) :=
  if w ≤ data.length then Except.ok (data.take w, data.drop w)
  else Except.error ZffError.ioUnexpectedEof

/-- Modelled from the spec: `u32::decode_directly` — 4 bytes little-endian. -/
def decode_u32_le (data : List Nat) : Except ZffError (Nat × List Nat) := do
  let (bs, r) ← read_bytes 4 data
  Except.ok (fromLEBytes bs, r)

/-- Modelled from the spec: `u64::decode_directly` — 8 bytes little-endian. -/
def decode_u64_le (data : List Nat) : Except ZffError (Nat × List Nat) := do
  let (bs, r) ← read_bytes 8 data
  Except.ok (fromLEBytes bs, r)

/-! ## Chunk header (`src/lib/header/chunk_header.rs`) -/

/-- The chunk header record. `ed25519_signature` is `Option<[u8; 64]>` in the
source; the 64-byte bound is carried as a hypothesis where needed. -/
structure ChunkHeader where
  header_version : Nat
  chunk_number : Nat
  chunk_size : Nat
  crc32 : Nat
  ed25519_signature : Option (List Nat)
deriving DecidableEq

/-- `ChunkHeader::new`. -/
def ChunkHeader.new (header_version chunk_number chunk_size crc32 : Nat)
    (ed25519_signature : Option (List Nat)) : ChunkHeader :=
  ⟨header_version, chunk_number, chunk_size, crc32, ed25519_signature⟩

/-- `ChunkHeader::set_chunk_size` (the `&mut self` setter, modelled as
returning the updated record). -/
def ChunkHeader.set_chunk_size (self : ChunkHeader) (size : Nat) : ChunkHeader :=
  { self with chunk_size := size }

/-- `ChunkHeader::set_crc32`. -/
def ChunkHeader.set_crc32 (self : ChunkHeader) (crc32 : Nat) : ChunkHeader :=
  { self with crc32 := crc32 }

/-- `ChunkHeader::set_signature`. -/
def ChunkHeader.set_signature (self : ChunkHeader)
    (signature : Option (List Nat)) : ChunkHeader :=
  { self with ed25519_signature := signature }

/-- `ChunkHeader::next_number` — `self.chunk_number += 1;` and nothing else
(u64 arithmetic, hence the explicit wrap at `2 ^ 64`). -/
def ChunkHeader.next_number (self : ChunkHeader) : ChunkHeader :=
  { self with chunk_number := (self.chunk_number + 1) % 2 ^ 64 }

/-- `ChunkHeader::encode_header` (the `HeaderObject` impl): version byte,
chunk number (8B LE), chunk size (8B LE), crc32 (4B LE), then — with no
presence tag — the raw signature bytes when present, nothing when absent. -/
def ChunkHeader.encode_header (self : ChunkHeader) : List Nat :=
  leBytes 1 self.header_version ++ leBytes 8 self.chunk_number ++
    leBytes 8 self.chunk_size ++ leBytes 4 self.crc32 ++
    (match self.ed25519_signature with
      | none => []
      | some signature => signature)

/-- `ChunkHeader::encode_directly` (the explicit `HeaderEncoder` impl): the
length field is `4 + 8 + encoded_header.len()`, i.e. it counts the
envelope's own 12 framing bytes. -/
def ChunkHeader.encode_directly (self : ChunkHeader) : List Nat :=
  beBytes32 HEADER_IDENTIFIER_CHUNK_HEADER ++
    leBytes 8 (4 + 8 + self.encode_header.length) ++ self.encode_header

/-! ## Compression header (`src/lib/header/compression_header.rs`) -/

/-- `CompressionAlgorithm` — closed variant set `{None, Zstd}`. -/
inductive CompressionAlgorithm where
  | None : CompressionAlgorithm
  | Zstd : CompressionAlgorithm
deriving DecidableEq

/-- `CompressionAlgorithm::get_value` — stable numeric codes 0 / 1. -/
def CompressionAlgorithm.get_value : CompressionAlgorithm → Nat
  | CompressionAlgorithm.None => 0
  | CompressionAlgorithm.Zstd => 1

structure CompressionHeader where
  header_version : Nat
  compression_algorithm : CompressionAlgorithm
  compression_level : Nat
deriving DecidableEq

/-- `CompressionHeader::new`. -/
def CompressionHeader.new (header_version : Nat) (compression_algo : CompressionAlgorithm)
    (compression_level : Nat) : CompressionHeader :=
  ⟨header_version, compression_algo, compression_level⟩

/-- `CompressionHeader::encode_header`: version byte, algorithm code byte,
level byte. -/
def CompressionHeader.encode_header (self : CompressionHeader) : List Nat :=
  leBytes 1 self.header_version ++ [self.compression_algorithm.get_value] ++
    leBytes 1 self.compression_level

/-- `CompressionHeader::encode_directly` (the explicit `HeaderEncoder` impl):
the length field is `encoded_header.len()` alone — body only, no envelope
bytes counted. -/
def CompressionHeader.encode_directly (self : CompressionHeader) : List Nat :=
  beBytes32 HEADER_IDENTIFIER_COMPRESSION_HEADER ++
    leBytes 8 self.encode_header.length ++ self.encode_header

/-- Modelled from the spec: `CompressionHeader` has no `HeaderDecoder` impl in
the excerpted sources; per the spec the body decodes as version byte,
algorithm code byte with closed-set rejection (`{0: None, 1: Zstd}`, any
other code is an unknown-algorithm decode error), level byte. -/
def CompressionHeader.decode_content (data : List Nat) :
    Except ZffError CompressionHeader := do
  let (header_version, r1) ← decode_u8 data
  let (algo_value, r2) ← decode_u8 r1
  let algo ← (match algo_value with
    | 0 => Except.ok CompressionAlgorithm.None
    | 1 => Except.ok CompressionAlgorithm.Zstd
    | _ => Except.error (ZffError.headerDecodeError ERROR_HEADER_DECODER_COMPRESSION_ALGORITHM))
  let (level, _r3) ← decode_u8 r2
  Except.ok (CompressionHeader.new header_version algo level)

/-- Modelled from the spec: the envelope decode for `CompressionHeader`
(`HeaderDecoder::decode_directly` default): validate the 4-byte big-endian
identifier, read the 8-byte little-endian length (body only for this type),
slice exactly that many body bytes, and hand them to `decode_content`. -/
def CompressionHeader.decode_directly (data : List Nat) :
    Except ZffError (CompressionHeader × List Nat) :=
  if data.take 4 = beBytes32 HEADER_IDENTIFIER_COMPRESSION_HEADER then do
    let (len, r1) ← decode_u64_le (data.drop 4)
    let (body, rest) ← read_bytes len r1
    let header ← CompressionHeader.decode_content body
    Except.ok (header, rest)
  else Except.error ZffError.mismatchIdentifier

/-! ## Segment header (`src/lib/header/segment_header.rs`) -/

structure SegmentHeader where
  header_version : Nat
  unique_identifier : Int
  segment_number : Nat
  length_of_segment : Nat

/-- `SegmentHeader::new`. -/
def SegmentHeader.new (header_version : Nat) (unique_identifier : Int)
    (segment_number length_of_segment : Nat) : SegmentHeader :=
  ⟨header_version, unique_identifier, segment_number, length_of_segment⟩

/-- `SegmentHeader::set_length_of_segment` — overwrites the length value. -/
def SegmentHeader.set_length_of_segment (self : SegmentHeader) (value : Nat) :
    SegmentHeader :=
  { self with length_of_segment := value }

/-- The `PartialEq for SegmentHeader` impl:
`self.segment_number == other.segment_number` and nothing else. -/
def SegmentHeader.eq (self other : SegmentHeader) : Bool :=
  self.segment_number == other.segment_number

/-! ## Main footer (`src/lib/version2/footer/main_footer.rs`) -/

structure MainFooter where
  version : Nat
  number_of_segments : Nat
  number_of_objects : Nat
  footer_offset : Nat
deriving DecidableEq

/-- `MainFooter::new`. -/
def MainFooter.new (version number_of_segments number_of_objects footer_offset : Nat) :
    MainFooter :=
  ⟨version, number_of_segments, number_of_objects, footer_offset⟩

/-- `MainFooter::encode_header`: version (1B), number_of_segments (8B LE),
number_of_objects (8B LE), footer_offset (8B LE). -/
def MainFooter.encode_header (self : MainFooter) : List Nat :=
  leBytes 1 self.version ++ leBytes 8 self.number_of_segments ++
    leBytes 8 self.number_of_objects ++ leBytes 8 self.footer_offset

/-- Modelled from the spec: the `HeaderCoding` envelope encode for
`MainFooter` is a trait default not in the excerpted sources; per the
external-interface table its length field covers the body only, after the
4-byte big-endian identifier `0x7A66664D`. -/
def MainFooter.encode_directly (self : MainFooter) : List Nat :=
  beBytes32 FOOTER_IDENTIFIER_MAIN_FOOTER ++
    leBytes 8 self.encode_header.length ++ self.encode_header

/-- `MainFooter::decode_content`: reads version, number_of_segments,
number_of_objects, footer_offset from the body cursor. -/
def MainFooter.decode_content (data : List Nat) : Except ZffError MainFooter := do
  let (footer_version, r1) ← decode_u8 data
  let (number_of_segments, r2) ← decode_u64_le r1
  let (number_of_objects, r3) ← decode_u64_le r2
  let (footer_offset, _r4) ← decode_u64_le r3
  Except.ok (MainFooter.new footer_version number_of_segments number_of_objects
    footer_offset)

/-- Modelled from the spec: the envelope decode for `MainFooter`
(`HeaderCoding` trait default): validate the identifier, read the
body-only length, slice the body, hand it to `decode_content`. -/
def MainFooter.decode_directly (data : List Nat) :
    Except ZffError (MainFooter × List Nat) :=
  if data.take 4 = beBytes32 FOOTER_IDENTIFIER_MAIN_FOOTER then do
    let (len, r1) ← decode_u64_le (data.drop 4)
    let (body, rest) ← read_bytes len r1
    let footer ← MainFooter.decode_content body
    Except.ok (footer, rest)
  else Except.error ZffError.mismatchIdentifier

/-! ## Encryption header and key unwrap (`src/lib/header/encryption_header.rs`) -/

/-- `EncryptionAlgorithm` — closed variant set for the payload AEAD cipher:
`AES128GCMSIV` (code 0, 16-byte key), `AES256GCMSIV` (code 1, 32-byte key). -/
inductive EncryptionAlgorithm where
  | AES128GCMSIV : EncryptionAlgorithm
  | AES256GCMSIV : EncryptionAlgorithm
deriving DecidableEq

/-- `KDFScheme` — closed variant set, currently only PBKDF2-HMAC-SHA256. -/
inductive KDFScheme where
  | PBKDF2SHA256 : KDFScheme
deriving DecidableEq

/-- `PBEScheme` — closed variant set for the key-wrap cipher. -/
inductive PBEScheme where
  | AES128CBC : PBEScheme
  | AES256CBC : PBEScheme
deriving DecidableEq

/-- `KDFParameters` — variant matching the KDF scheme; for PBKDF2:
iteration count plus salt bytes. -/
inductive KDFParameters where
  | PBKDF2SHA256Parameters : Nat → List Nat → KDFParameters
deriving DecidableEq

/-- Modelled from the spec: `PBEHeader` is consumed by the encryption header
but its own source file is not in the excerpt. Its fields are the PBE
descriptor of the data model: a KDF scheme/parameters pair, the key-wrap
cipher scheme, and that cipher's nonce/IV. The accessor methods
(`kdf_scheme()`, `kdf_parameters()`, `encryption_scheme()`, `nonce()`)
are the field projections. -/
structure PBEHeader where
  header_version : Nat
  kdf_scheme : KDFScheme
  kdf_parameters : KDFParameters
  encryption_scheme : PBEScheme
  nonce : List Nat
deriving DecidableEq

/-- Modelled from the spec: idealized PBKDF2-HMAC-SHA256 key derivation.
The real primitive is outside the excerpt; the spec requires only that it
is a deterministic, salted function of the passphrase, and the model keeps
it injective in the passphrase for a fixed salt/iteration count (distinct
passphrases derive distinct key-encryption keys). `klen` distinguishes the
16- and 32-byte output variants requested by the two wrap ciphers. -/
def derive_kek (klen iterations : Nat) (salt password : List Nat) : List Nat :=
  klen :: password.length :: password ++ salt.length :: salt ++ leBytes 8 iterations

/-- Modelled from the spec: the CBC key-wrap encryption direction, idealized
as a self-delimiting authenticated container: the ciphertext records the
key-encryption key's length, the key-encryption key, the IV and the
wrapped plaintext. Only the abstract contract of the wrap/unwrap pair
matters to this core: unwrapping with the same derived key and IV recovers
the plaintext, anything else fails. -/
def wrap_key (kek nonce plain : List Nat) : List Nat :=
  leBytes 8 kek.length ++ kek ++ nonce ++ plain

/-- Modelled from the spec: the CBC key-wrap decryption direction matching
`wrap_key`. Any mismatch of the derived key-encryption key or the IV is
collapsed into the single opaque decryption-failure error. -/
def cbc_unwrap (kek nonce ct : List Nat) : Except ZffError (List Nat) :=
  if ct.take 8 = leBytes 8 kek.length ∧
      (ct.drop 8).take kek.length = kek ∧
      ((ct.drop 8).drop kek.length).take nonce.length = nonce then
    Except.ok (((ct.drop 8).drop kek.length).drop nonce.length)
  else Except.error ZffError.decryptionError

/-- Modelled from the spec: `Encryption::decrypt_pbkdf2sha256_aes128cbc` —
derive a key-encryption key from passphrase/salt/iterations, then unwrap
`encrypted` under it with the given IV (AES-128-CBC variant). -/
def Encryption.decrypt_pbkdf2sha256_aes128cbc (iterations : Nat)
    (salt nonce password encrypted : List Nat) : Except ZffError (List Nat) :=
  cbc_unwrap (derive_kek 16 iterations salt password) nonce encrypted

/-- Modelled from the spec: `Encryption::decrypt_pbkdf2sha256_aes256cbc` —
the AES-256-CBC variant. -/
def Encryption.decrypt_pbkdf2sha256_aes256cbc (iterations : Nat)
    (salt nonce password encrypted : List Nat) : Except ZffError (List Nat) :=
  cbc_unwrap (derive_kek 32 iterations salt password) nonce encrypted

/-- The encryption header record. `encrypted_encryption_key` is the
passphrase-wrapped data-encryption key; `encrypted_header_nonce` is the
fixed 12-byte header-encryption nonce. -/
structure EncryptionHeader where
  header_version : Nat
  pbe_header : PBEHeader
  algorithm : EncryptionAlgorithm
  encrypted_encryption_key : List Nat
  encrypted_header_nonce : List Nat
deriving DecidableEq

/-- `EncryptionHeader::new`. -/
def EncryptionHeader.new (header_version : Nat) (pbe_header : PBEHeader)
    (algorithm : EncryptionAlgorithm)
    (encrypted_encryption_key encrypted_header_nonce : List Nat) : EncryptionHeader :=
  ⟨header_version, pbe_header, algorithm, encrypted_encryption_key,
    encrypted_header_nonce⟩

/-- `EncryptionHeader::decrypt_encryption_key`: dispatch on the PBE header's
KDF scheme, then on its parameters, then on the wrap-cipher scheme, and
call the matching `Encryption::decrypt_*` primitive on the wrapped key.
The source performs no validation of the plaintext's length against
`self.algorithm` — the primitive's result is returned unchanged. -/
def EncryptionHeader.decrypt_encryption_key (self : EncryptionHeader)
    (password : List Nat) : Except ZffError (List Nat) :=
  match self.pbe_header.kdf_scheme with
  | KDFScheme.PBKDF2SHA256 =>
    match self.pbe_header.kdf_parameters with
    | KDFParameters.PBKDF2SHA256Parameters iterations salt =>
      match self.pbe_header.encryption_scheme with
      | PBEScheme.AES128CBC => Encryption.decrypt_pbkdf2sha256_aes128cbc
          iterations salt self.pbe_header.nonce password
          self.encrypted_encryption_key
      | PBEScheme.AES256CBC => Encryption.decrypt_pbkdf2sha256_aes256cbc
          iterations salt self.pbe_header.nonce password
          self.encrypted_encryption_key

/-- The key-encryption key that `decrypt_encryption_key` derives for a given
header and passphrase, following the same dispatch. -/
def EncryptionHeader.kekOf (self : EncryptionHeader) (password : List Nat) :
    List Nat :=
  match self.pbe_header.kdf_parameters with
  | KDFParameters.PBKDF2SHA256Parameters iterations salt =>
    match self.pbe_header.encryption_scheme with
    | PBEScheme.AES128CBC => derive_kek 16 iterations salt password
    | PBEScheme.AES256CBC => derive_kek 32 iterations salt password

/-- Modelled from the spec: `PBEHeader::decode_directly` — the PBE header's
wire format is outside the excerpt; modelled as its envelope (identifier
`0x7A666670`, body-only 8-byte LE length) followed by: version byte, KDF
scheme byte (closed set `{0}`), PBE scheme byte (closed set `{0, 1}`),
iteration count (4B LE), salt as a length-prefixed buffer (4B LE length),
and a 16-byte raw IV; unknown scheme codes are decode errors. -/
def PBEHeader.decode_directly (data : List Nat) :
    Except ZffError (PBEHeader × List Nat) :=
  if data.take 4 = beBytes32 HEADER_IDENTIFIER_PBE_HEADER then do
    let (_len, r1) ← decode_u64_le (data.drop 4)
    let (header_version, r2) ← decode_u8 r1
    let (kdf_value, r3) ← decode_u8 r2
    let kdf ← (match kdf_value with
      | 0 => Except.ok KDFScheme.PBKDF2SHA256
      | _ => Except.error (ZffError.headerDecodeError ERROR_HEADER_DECODER_UNKNOWN_KDF_SCHEME))
    let (pbe_value, r4) ← decode_u8 r3
    let scheme ← (match pbe_value with
      | 0 => Except.ok PBEScheme.AES128CBC
      | 1 => Except.ok PBEScheme.AES256CBC
      | _ => Except.error (ZffError.headerDecodeError ERROR_HEADER_DECODER_UNKNOWN_PBE_SCHEME))
    let (iterations, r5) ← decode_u32_le r4
    let (salt_length, r6) ← decode_u32_le r5
    let (salt, r7) ← read_bytes salt_length r6
    let (nonce, r8) ← read_bytes 16 r7
    Except.ok (⟨header_version, kdf,
      KDFParameters.PBKDF2SHA256Parameters iterations salt, scheme, nonce⟩, r8)
  else Except.error ZffError.mismatchIdentifier

/-- `EncryptionHeader::decode_content`: version byte, nested PBE header,
algorithm byte (`0 → AES128GCMSIV`, `1 → AES256GCMSIV`, anything else is
the unknown-encryption-algorithm decode error — never a default), then the
wrapped key as a length-prefixed buffer (4B LE length, `read_exact` body)
and the 12-byte header nonce. -/
def EncryptionHeader.decode_content (data : List Nat) :
    Except ZffError EncryptionHeader := do
  let (header_version, r1) ← decode_u8 data
  let (pbe_header, r2) ← PBEHeader.decode_directly r1
  let (algo_value, r3) ← decode_u8 r2
  let encryption_algorithm ← (match algo_value with
    | 0 => Except.ok EncryptionAlgorithm.AES128GCMSIV
    | 1 => Except.ok EncryptionAlgorithm.AES256GCMSIV
    | _ => Except.error (ZffError.headerDecodeError ERROR_HEADER_DECODER_UNKNOWN_ENCRYPTION_ALGORITHM))
  let (key_length, r4) ← decode_u32_le r3
  let (encryption_key, r5) ← read_bytes key_length r4
  let (nonce, _r6) ← read_bytes 12 r5
  Except.ok (EncryptionHeader.new header_version pbe_header encryption_algorithm
    encryption_key nonce)

/-! ## Helper lemmas about the primitive codec -/

theorem leBytes_length (w n : Nat) : (leBytes w n).length = w := by
  induction w generalizing n with
  | zero => rfl
  | succ w ih => simp [leBytes, ih]

theorem beBytes32_length (n : Nat) : (beBytes32 n).length = 4 := by
  simp [beBytes32, leBytes_length]

theorem fromLEBytes_leBytes (w n : Nat) (h : n < 256 ^ w) :
    fromLEBytes (leBytes w n) = n := by
  induction w generalizing n with
  | zero => simp [pow_zero] at h; simp [h, leBytes, fromLEBytes]
  | succ w ih =>
    have hd : n / 256 < 256 ^ w := by
      rw [Nat.div_lt_iff_lt_mul (by norm_num)]
      calc n < 256 ^ (w + 1) := h
        _ = 256 ^ w * 256 := by ring
    simp [leBytes, fromLEBytes, ih _ hd, Nat.mod_add_div]

theorem leBytes_one (v : Nat) (h : v < 256) : leBytes 1 v = [v] := by
  simp [leBytes, Nat.mod_eq_of_lt h]

theorem read_bytes_append (w : Nat) (a b : List Nat) (h : a.length = w) :
    read_bytes w (a ++ b) = Except.ok (a, b) := by
  subst h
  simp [read_bytes, List.take_left, List.drop_left]

theorem decode_u64_le_leBytes (n : Nat) (b : List Nat) (h : n < 2 ^ 64) :
    decode_u64_le (leBytes 8 n ++ b) = Except.ok (n, b) := by
  have h8 : n < 256 ^ 8 := by norm_num at h ⊢; omega
  unfold decode_u64_le
  rw [read_bytes_append 8 (leBytes 8 n) b (leBytes_length 8 n)]
  show Except.ok (fromLEBytes (leBytes 8 n), b) = Except.ok (n, b)
  rw [fromLEBytes_leBytes 8 n h8]

instance {ε α : Type} [DecidableEq ε] [DecidableEq α] :
    DecidableEq (Except ε α) := fun x y =>
  match x, y with
  | Except.ok a, Except.ok b =>
    if h : a = b then Decidable.isTrue (congrArg Except.ok h)
    else Decidable.isFalse (fun hc => h (Except.ok.inj hc))
  | Except.ok _, Except.error _ => Decidable.isFalse (fun hc => Except.noConfusion hc)
  | Except.error _, Except.ok _ => Decidable.isFalse (fun hc => Except.noConfusion hc)
  | Except.error e, Except.error f =>
    if h : e = f then Decidable.isTrue (congrArg Except.error h)
    else Decidable.isFalse (fun hc => h (Except.error.inj hc))

theorem except_bind_ok {α β γ : Type} (x : α) (f : α → Except γ β) :
    Bind.bind (Except.ok x) f = f x := rfl

theorem except_bind_error {α β γ : Type} (e : γ) (f : α → Except γ β) :
    Bind.bind (Except.error e : Except γ α) f = Except.error e := rfl

theorem read_bytes_all (l : List Nat) : read_bytes l.length l = Except.ok (l, []) := by
  simp [read_bytes, List.take_length, List.drop_length]

theorem decode_u64_le_exact (n : Nat) (h : n < 2 ^ 64) :
    decode_u64_le (leBytes 8 n) = Except.ok (n, []) := by
  have := decode_u64_le_leBytes n [] h
  rwa [List.append_nil] at this

/-- Generic n-fold application, used to state the chunk-sequencing claim. -/
def applyN {α : Type} (f : α → α) : Nat → α → α
  | 0, a => a
  | n + 1, a => applyN f n (f a)

/-! ## Claim C4 -/

/-- C4 (confirmed): the `PartialEq for SegmentHeader` impl compares two
segment headers equal exactly when their `segment_number` fields are equal;
`unique_identifier` and `length_of_segment` (and `header_version`) play no
role, and differing segment numbers never compare equal. -/
theorem C4_segment_header_eq_solely_by_number (a b : SegmentHeader) :
    SegmentHeader.eq a b = true ↔ a.segment_number = b.segment_number := by
  simp [SegmentHeader.eq]

/-! ## Claim C9 -/

/-- C9 (confirmed): each explicitly-named patch operation overwrites only its
unknown-until-finalized field: `SegmentHeader::set_length_of_segment`
changes only `length_of_segment`, and `ChunkHeader::set_chunk_size`,
`set_crc32`, `set_signature` change only `chunk_size`, `crc32`,
`ed25519_signature` respectively, leaving every other field unchanged. -/
theorem C9_patch_operations_only_touch_their_field (sh : SegmentHeader) (v : Nat)
    (ch : ChunkHeader) (sz cr : Nat) (sg : Option (List Nat)) :
    ((sh.set_length_of_segment v).length_of_segment = v ∧
      (sh.set_length_of_segment v).header_version = sh.header_version ∧
      (sh.set_length_of_segment v).unique_identifier = sh.unique_identifier ∧
      (sh.set_length_of_segment v).segment_number = sh.segment_number) ∧
    ((ch.set_chunk_size sz).chunk_size = sz ∧
      (ch.set_chunk_size sz).header_version = ch.header_version ∧
      (ch.set_chunk_size sz).chunk_number = ch.chunk_number ∧
      (ch.set_chunk_size sz).crc32 = ch.crc32 ∧
      (ch.set_chunk_size sz).ed25519_signature = ch.ed25519_signature) ∧
    ((ch.set_crc32 cr).crc32 = cr ∧
      (ch.set_crc32 cr).header_version = ch.header_version ∧
      (ch.set_crc32 cr).chunk_number = ch.chunk_number ∧
      (ch.set_crc32 cr).chunk_size = ch.chunk_size ∧
      (ch.set_crc32 cr).ed25519_signature = ch.ed25519_signature) ∧
    ((ch.set_signature sg).ed25519_signature = sg ∧
      (ch.set_signature sg).header_version = ch.header_version ∧
      (ch.set_signature sg).chunk_number = ch.chunk_number ∧
      (ch.set_signature sg).chunk_size = ch.chunk_size ∧
      (ch.set_signature sg).crc32 = ch.crc32) :=
  ⟨⟨rfl, rfl, rfl, rfl⟩, ⟨rfl, rfl, rfl, rfl, rfl⟩, ⟨rfl, rfl, rfl, rfl, rfl⟩,
    ⟨rfl, rfl, rfl, rfl, rfl⟩⟩

/-! ## Claim C3 -/

/-- A chunk header whose payload fields are populated, used to exhibit that
`next_number` does not reset them. -/
def C3cex : ChunkHeader := ChunkHeader.new 1 1 5 7 (some (List.replicate 64 3))

/-- C3 (counterexample): on a header with number 1, size 5, crc32 7 and a
signature present, one application of `next_number` yields number 2 but
leaves the payload-derived fields populated — the signature is still
present, the size and checksum are nonzero — contradicting the claim that
they are reset to unset. -/
theorem C3_counterexample_payload_fields_not_reset :
    (ChunkHeader.next_number C3cex).chunk_number = 1 + 1 ∧
    (ChunkHeader.next_number C3cex).ed25519_signature ≠ none ∧
    (ChunkHeader.next_number C3cex).chunk_size ≠ 0 ∧
    (ChunkHeader.next_number C3cex).crc32 ≠ 0 := by
  refine ⟨rfl, ?_, by decide, by decide⟩
  simp [C3cex, ChunkHeader.next_number, ChunkHeader.new]

/-- C3 (corrected): applying `next_number` n times to a header with
`chunk_number = k` yields `chunk_number = k + n` (u64 arithmetic, hence the
no-overflow hypothesis), and leaves `chunk_size`, `crc32` and
`ed25519_signature` — as well as `header_version` — unchanged rather than
resetting them to unset. -/
theorem C3_next_number_advances_and_preserves (h : ChunkHeader) (n : Nat)
    (hb : h.chunk_number + n < 2 ^ 64) :
    (applyN ChunkHeader.next_number n h).chunk_number = h.chunk_number + n ∧
    (applyN ChunkHeader.next_number n h).chunk_size = h.chunk_size ∧
    (applyN ChunkHeader.next_number n h).crc32 = h.crc32 ∧
    (applyN ChunkHeader.next_number n h).ed25519_signature = h.ed25519_signature ∧
    (applyN ChunkHeader.next_number n h).header_version = h.header_version := by
  induction n generalizing h with
  | zero => simp [applyN]
  | succ n ih =>
    have h1 : h.chunk_number + 1 < 2 ^ 64 := by omega
    have hstep : (h.next_number).chunk_number = h.chunk_number + 1 :=
      Nat.mod_eq_of_lt h1
    have hb2 : (h.next_number).chunk_number + n < 2 ^ 64 := by rw [hstep]; omega
    obtain ⟨e1, e2, e3, e4, e5⟩ := ih h.next_number hb2
    rw [hstep] at e1
    refine ⟨?_, ?_, ?_, ?_, ?_⟩
    · show (applyN ChunkHeader.next_number n h.next_number).chunk_number = _
      rw [e1]; omega
    · exact e2
    · exact e3
    · exact e4
    · exact e5

/-- C3 (witness): the corrected statement instantiated at a populated header
advanced three times. -/
theorem C3_next_number_advances_and_preserves_witness :
    (applyN ChunkHeader.next_number 3 C3cex).chunk_number = 1 + 3 ∧
    (applyN ChunkHeader.next_number 3 C3cex).chunk_size = 5 ∧
    (applyN ChunkHeader.next_number 3 C3cex).crc32 = 7 ∧
    (applyN ChunkHeader.next_number 3 C3cex).ed25519_signature =
      some (List.replicate 64 3) ∧
    (applyN ChunkHeader.next_number 3 C3cex).header_version = 1 :=
  C3_next_number_advances_and_preserves C3cex 3 (by decide)

/-! ## Claim C10 -/

/-- C10 (confirmed): the encoded chunk header body carries no presence tag
for the optional signature: with no signature, `encode_header` is exactly
version byte, chunk number (8B LE), chunk size (8B LE), crc32 (4B LE) — 21
bytes; with a (64-byte) signature it is that same 21-byte prefix followed
by the raw signature bytes — 85 bytes — so presence is recoverable only
from the record's total length. -/
theorem C10_chunk_body_untagged_optional_signature (ch : ChunkHeader)
    (s : List Nat) (hv : ch.header_version < 256) :
    (ch.ed25519_signature = none →
      ch.encode_header = ch.header_version :: (leBytes 8 ch.chunk_number ++
        leBytes 8 ch.chunk_size ++ leBytes 4 ch.crc32) ∧
      ch.encode_header.length = 21) ∧
    (ch.ed25519_signature = some s → s.length = 64 →
      ch.encode_header = ch.header_version :: (leBytes 8 ch.chunk_number ++
        leBytes 8 ch.chunk_size ++ leBytes 4 ch.crc32) ++ s ∧
      ch.encode_header.length = 85) := by
  constructor
  · intro hnone
    simp [ChunkHeader.encode_header, hnone, leBytes_one _ hv, leBytes_length]
  · intro hsome hlen
    simp [ChunkHeader.encode_header, hsome, leBytes_one _ hv, leBytes_length, hlen]

/-- A concrete signed chunk header for the C10 witness. -/
def C10ch : ChunkHeader := ChunkHeader.new 1 2 3 4 (some (List.replicate 64 9))

/-- C10 (witness): the statement instantiated at a signed chunk header. -/
theorem C10_chunk_body_untagged_optional_signature_witness :
    (C10ch.ed25519_signature = none →
      C10ch.encode_header = C10ch.header_version :: (leBytes 8 C10ch.chunk_number ++
        leBytes 8 C10ch.chunk_size ++ leBytes 4 C10ch.crc32) ∧
      C10ch.encode_header.length = 21) ∧
    (C10ch.ed25519_signature = some (List.replicate 64 9) →
      (List.replicate 64 9 : List Nat).length = 64 →
      C10ch.encode_header = C10ch.header_version :: (leBytes 8 C10ch.chunk_number ++
        leBytes 8 C10ch.chunk_size ++ leBytes 4 C10ch.crc32) ++ List.replicate 64 9 ∧
      C10ch.encode_header.length = 85) :=
  C10_chunk_body_untagged_optional_signature C10ch (List.replicate 64 9) (by decide)

/-! ## Claim C2 -/

/-- C2 (confirmed): `ChunkHeader::encode_directly` writes an 8-byte
little-endian length field whose value is the body length plus 12 (the
envelope's 4-byte identifier and 8-byte length prefix), while
`CompressionHeader::encode_directly` writes a length field equal to the
body length alone — the per-type convention is reproduced, not unified. -/
theorem C2_length_field_convention (ch : ChunkHeader) (co : CompressionHeader)
    (hs : ∀ s, ch.ed25519_signature = some s → s.length = 64) :
    (((ch.encode_directly).drop 4).take 8).length = 8 ∧
    ((ch.encode_directly).drop 4).take 8 =
      leBytes 8 (ch.encode_header.length + 12) ∧
    fromLEBytes (((ch.encode_directly).drop 4).take 8) =
      ch.encode_header.length + 12 ∧
    ((co.encode_directly).drop 4).take 8 = leBytes 8 co.encode_header.length ∧
    fromLEBytes (((co.encode_directly).drop 4).take 8) =
      co.encode_header.length := by
  have hchdrop : (ch.encode_directly).drop 4 =
      leBytes 8 (4 + 8 + ch.encode_header.length) ++ ch.encode_header := by
    unfold ChunkHeader.encode_directly
    rw [List.append_assoc, List.drop_left' (beBytes32_length _)]
  have hchtake : ((ch.encode_directly).drop 4).take 8 =
      leBytes 8 (4 + 8 + ch.encode_header.length) := by
    rw [hchdrop, List.take_left' (leBytes_length _ _)]
  have hchtake12 : ((ch.encode_directly).drop 4).take 8 =
      leBytes 8 (ch.encode_header.length + 12) := by
    rw [hchtake]; congr 1; omega
  have hchbound : ch.encode_header.length = 21 ∨ ch.encode_header.length = 85 := by
    cases hsig : ch.ed25519_signature with
    | none => left; simp [ChunkHeader.encode_header, hsig, leBytes_length]
    | some s =>
      right
      have hs64 := hs s hsig
      simp [ChunkHeader.encode_header, hsig, leBytes_length, hs64]
  have hbound : ch.encode_header.length + 12 < 256 ^ 8 := by
    rcases hchbound with h | h <;> rw [h] <;> norm_num
  have hcodrop : (co.encode_directly).drop 4 =
      leBytes 8 co.encode_header.length ++ co.encode_header := by
    unfold CompressionHeader.encode_directly
    rw [List.append_assoc, List.drop_left' (beBytes32_length _)]
  have hcotake : ((co.encode_directly).drop 4).take 8 =
      leBytes 8 co.encode_header.length := by
    rw [hcodrop, List.take_left' (leBytes_length _ _)]
  have hcolen : co.encode_header.length = 3 := by
    simp [CompressionHeader.encode_header, leBytes_length]
  refine ⟨?_, hchtake12, ?_, hcotake, ?_⟩
  · rw [hchtake12, leBytes_length]
  · rw [hchtake12, fromLEBytes_leBytes _ _ hbound]
  · rw [hcotake, fromLEBytes_leBytes]
    rw [hcolen]; norm_num

/-- A concrete signed chunk header for the C2 witness. -/
def C2ch : ChunkHeader := ChunkHeader.new 1 1 2 3 (some (List.replicate 64 9))

/-- A concrete compression header for the C2 witness. -/
def C2co : CompressionHeader := CompressionHeader.new 1 CompressionAlgorithm.Zstd 5

/-- C2 (witness): the statement instantiated at a signed chunk header and a
Zstd compression header. -/
theorem C2_length_field_convention_witness :
    (((C2ch.encode_directly).drop 4).take 8).length = 8 ∧
    ((C2ch.encode_directly).drop 4).take 8 =
      leBytes 8 (C2ch.encode_header.length + 12) ∧
    fromLEBytes (((C2ch.encode_directly).drop 4).take 8) =
      C2ch.encode_header.length + 12 ∧
    ((C2co.encode_directly).drop 4).take 8 = leBytes 8 C2co.encode_header.length ∧
    fromLEBytes (((C2co.encode_directly).drop 4).take 8) =
      C2co.encode_header.length :=
  C2_length_field_convention C2ch C2co
    (fun s hsx => by injection hsx with h2; subst h2; decide)

/-! ## Claim C5 -/

/-- C5 (confirmed): the compression header `{version = 1, algorithm = Zstd
(code 1), level = 5}` encodes to exactly the 4-byte big-endian identifier
`0x7A666663`, the 8-byte little-endian length 3, and the body `[1, 1, 5]`
— 15 bytes in total — and decoding those 15 bytes reproduces the original
three field values. -/
theorem C5_compression_header_end_to_end :
    CompressionHeader.encode_directly (CompressionHeader.new 1 CompressionAlgorithm.Zstd 5) =
      [0x7A, 0x66, 0x66, 0x63] ++ [3, 0, 0, 0, 0, 0, 0, 0] ++ [1, 1, 5] ∧
    (CompressionHeader.encode_directly (CompressionHeader.new 1 CompressionAlgorithm.Zstd 5)).length = 15 ∧
    CompressionHeader.decode_directly
        ([0x7A, 0x66, 0x66, 0x63] ++ [3, 0, 0, 0, 0, 0, 0, 0] ++ [1, 1, 5]) =
      Except.ok (CompressionHeader.new 1 CompressionAlgorithm.Zstd 5, []) := by
  decide

/-! ## Claim C6 -/

/-- C6 (confirmed): for every main footer whose fields are in their u8/u64
domains, decoding its encoding returns the footer with all four fields
intact (and exhausts the input); the example `{version = 2, segments = 3,
objects = 10, footer_offset = 4096}` encodes to 12 + 1 + 8 + 8 + 8 = 37
bytes. -/
theorem C6_main_footer_roundtrip (mf : MainFooter)
    (h1 : mf.version < 256) (h2 : mf.number_of_segments < 2 ^ 64)
    (h3 : mf.number_of_objects < 2 ^ 64) (h4 : mf.footer_offset < 2 ^ 64) :
    MainFooter.decode_directly (MainFooter.encode_directly mf) =
      Except.ok (mf, []) ∧
    (MainFooter.encode_directly (MainFooter.new 2 3 10 4096)).length = 37 := by
  have h2p : mf.number_of_segments < 256 ^ 8 := by norm_num at h2 ⊢; omega
  have h3p : mf.number_of_objects < 256 ^ 8 := by norm_num at h3 ⊢; omega
  constructor
  · have hbody : mf.encode_header = mf.version ::
        (leBytes 8 mf.number_of_segments ++ (leBytes 8 mf.number_of_objects ++
          leBytes 8 mf.footer_offset)) := by
      simp [MainFooter.encode_header, leBytes_one _ h1, List.append_assoc]
    have hblen : mf.encode_header.length = 25 := by
      rw [hbody]; simp [leBytes_length]
    have hcontent : MainFooter.decode_content mf.encode_header = Except.ok mf := by
      rw [hbody]
      simp only [MainFooter.decode_content, decode_u8, except_bind_ok,
        decode_u64_le_leBytes _ _ h2, decode_u64_le_leBytes _ _ h3,
        decode_u64_le_exact _ h4]
      rfl
    have henc : mf.encode_directly = beBytes32 FOOTER_IDENTIFIER_MAIN_FOOTER ++
        (leBytes 8 25 ++ mf.encode_header) := by
      unfold MainFooter.encode_directly
      rw [hblen, List.append_assoc]
    rw [henc]
    unfold MainFooter.decode_directly
    rw [List.take_left' (beBytes32_length _), if_pos rfl,
      List.drop_left' (beBytes32_length _)]
    simp only [decode_u64_le_leBytes 25 _ (by norm_num), except_bind_ok]
    rw [← hblen, read_bytes_all]
    simp only [except_bind_ok, hcontent]
  · decide

/-- C6 (witness): the statement instantiated at the example footer
`{version = 2, segments = 3, objects = 10, footer_offset = 4096}`. -/
theorem C6_main_footer_roundtrip_witness :
    MainFooter.decode_directly (MainFooter.encode_directly (MainFooter.new 2 3 10 4096)) =
      Except.ok (MainFooter.new 2 3 10 4096, []) ∧
    (MainFooter.encode_directly (MainFooter.new 2 3 10 4096)).length = 37 :=
  C6_main_footer_roundtrip (MainFooter.new 2 3 10 4096)
    (by decide) (by decide) (by decide) (by decide)

/-! ## Helper lemmas for the key-unwrap model -/

theorem wrap_key_take8 (kek nonce plain : List Nat) :
    (wrap_key kek nonce plain).take 8 = leBytes 8 kek.length := by
  unfold wrap_key
  rw [List.append_assoc, List.append_assoc]
  exact List.take_left' (leBytes_length _ _)

theorem wrap_key_drop8 (kek nonce plain : List Nat) :
    (wrap_key kek nonce plain).drop 8 = kek ++ (nonce ++ plain) := by
  unfold wrap_key
  rw [List.append_assoc, List.append_assoc]
  exact List.drop_left' (leBytes_length _ _)

theorem cbc_unwrap_wrap (kek nonce plain : List Nat) :
    cbc_unwrap kek nonce (wrap_key kek nonce plain) = Except.ok plain := by
  unfold cbc_unwrap
  rw [wrap_key_take8, wrap_key_drop8,
    if_pos ⟨rfl, List.take_left _ _, by rw [List.drop_left, List.take_left]⟩,
    List.drop_left, List.drop_left]

theorem cbc_unwrap_wrap_ne (kek kek2 nonce plain : List Nat) (hne : kek2 ≠ kek)
    (hb : kek.length < 2 ^ 64) (hb2 : kek2.length < 2 ^ 64) :
    cbc_unwrap kek2 nonce (wrap_key kek nonce plain) =
      Except.error ZffError.decryptionError := by
  unfold cbc_unwrap
  rw [wrap_key_take8, wrap_key_drop8]
  apply if_neg
  rintro ⟨hc1, hc2, -⟩
  have hlen : kek.length = kek2.length := by
    have hc := congrArg fromLEBytes hc1
    rwa [fromLEBytes_leBytes _ _ (by norm_num at hb ⊢; omega),
      fromLEBytes_leBytes _ _ (by norm_num at hb2 ⊢; omega)] at hc
  rw [← hlen, List.take_left] at hc2
  exact hne hc2.symm

theorem derive_kek_inj (klen iterations : Nat) (salt pw pw2 : List Nat)
    (h : derive_kek klen iterations salt pw = derive_kek klen iterations salt pw2) :
    pw = pw2 := by
  unfold derive_kek at h
  have h3 := List.append_cancel_right h
  injection h3 with _ h4
  injection h4 with _ h5
  exact List.append_cancel_right h5

theorem decrypt_eq_unwrap (hdr : EncryptionHeader) (password : List Nat) :
    hdr.decrypt_encryption_key password =
      cbc_unwrap (hdr.kekOf password) hdr.pbe_header.nonce
        hdr.encrypted_encryption_key := by
  obtain ⟨v, pbe, alg, key, nn⟩ := hdr
  obtain ⟨pv, ks, kp, es, nonce⟩ := pbe
  cases ks
  cases kp with
  | PBKDF2SHA256Parameters iterations salt => cases es <;> rfl

theorem kekOf_inj (hdr : EncryptionHeader) (pw pw2 : List Nat)
    (h : hdr.kekOf pw = hdr.kekOf pw2) : pw = pw2 := by
  obtain ⟨v, pbe, alg, key, nn⟩ := hdr
  obtain ⟨pv, ks, kp, es, nonce⟩ := pbe
  cases kp with
  | PBKDF2SHA256Parameters iterations salt =>
    cases es <;> exact derive_kek_inj _ _ _ _ _ h

theorem decrypt_only_uses_pbe_and_key (a b : EncryptionHeader) (pw : List Nat)
    (hp : a.pbe_header = b.pbe_header)
    (hk : a.encrypted_encryption_key = b.encrypted_encryption_key) :
    a.decrypt_encryption_key pw = b.decrypt_encryption_key pw := by
  rw [decrypt_eq_unwrap, decrypt_eq_unwrap]
  unfold EncryptionHeader.kekOf
  rw [hp, hk]

/-! ## Claim C1 -/

/-- PBE descriptor for the C1 counterexample (AES-128-CBC wrap). -/
def C1pbe : PBEHeader :=
  ⟨1, KDFScheme.PBKDF2SHA256, KDFParameters.PBKDF2SHA256Parameters 1000 [9, 9],
    PBEScheme.AES128CBC, List.replicate 16 0⟩

/-- The passphrase under which the C1 counterexample key is wrapped. -/
def C1password : List Nat := [42]

/-- A 7-byte wrapped plaintext — deliberately not 16 bytes. -/
def C1plain : List Nat := [1, 2, 3, 4, 5, 6, 7]

/-- An encryption header declaring AES-128-GCM-SIV (16-byte key) whose
wrapped key unwraps to only 7 bytes. -/
def C1hdr : EncryptionHeader :=
  ⟨2, C1pbe, EncryptionAlgorithm.AES128GCMSIV,
    wrap_key (derive_kek 16 1000 [9, 9] C1password) (List.replicate 16 0) C1plain,
    List.replicate 12 0⟩

/-- C1 (counterexample): `decrypt_encryption_key` returns `Ok` with a 7-byte
key on a header whose algorithm is AES-128-GCM-SIV (16-byte key): the
length mismatch is silently tolerated, not surfaced as an error. -/
theorem C1_counterexample_wrong_length_key_is_ok :
    C1hdr.algorithm = EncryptionAlgorithm.AES128GCMSIV ∧
    C1hdr.decrypt_encryption_key C1password = Except.ok C1plain ∧
    C1plain.length = 7 ∧ (7 : Nat) ≠ 16 := by
  decide

/-- C1 (corrected): `decrypt_encryption_key` returns the unwrapped plaintext
unchanged, whatever its length: no validation against the key length
required by `algorithm` happens at unwrap time (nor at decode time —
`decode_content` accepts any `key_length`), so a wrapped key of the wrong
length is returned inside `Ok` rather than surfaced as an error. -/
theorem C1_decrypt_returns_plaintext_unvalidated (hdr : EncryptionHeader)
    (password plain : List Nat)
    (h : hdr.encrypted_encryption_key =
      wrap_key (hdr.kekOf password) hdr.pbe_header.nonce plain) :
    hdr.decrypt_encryption_key password = Except.ok plain := by
  rw [decrypt_eq_unwrap, h, cbc_unwrap_wrap]

/-- C1 (witness): the corrected statement instantiated at the 7-byte-key
header. -/
theorem C1_decrypt_returns_plaintext_unvalidated_witness :
    C1hdr.decrypt_encryption_key C1password = Except.ok C1plain :=
  C1_decrypt_returns_plaintext_unvalidated C1hdr C1password C1plain (by decide)

/-! ## Claim C8 -/

/-- C8 (confirmed): the key unwrap depends only on the PBE descriptor, the
wrapped key and the passphrase (two headers agreeing on those agree on the
result — the operation is pure and deterministic in its inputs), and for a
passphrase other than the one the key was wrapped under it fails with the
single opaque decryption error, never returning a key. -/
theorem C8_unwrap_deterministic_and_wrong_passphrase_fails
    (hdr hdr2 : EncryptionHeader) (password password2 plain : List Nat)
    (hp : hdr.pbe_header = hdr2.pbe_header)
    (hk : hdr.encrypted_encryption_key = hdr2.encrypted_encryption_key)
    (hwrap : hdr.encrypted_encryption_key =
      wrap_key (hdr.kekOf password) hdr.pbe_header.nonce plain)
    (hne : password2 ≠ password)
    (hb : (hdr.kekOf password).length < 2 ^ 64)
    (hb2 : (hdr.kekOf password2).length < 2 ^ 64) :
    hdr.decrypt_encryption_key password2 = hdr2.decrypt_encryption_key password2 ∧
    hdr.decrypt_encryption_key password2 = Except.error ZffError.decryptionError := by
  refine ⟨decrypt_only_uses_pbe_and_key hdr hdr2 password2 hp hk, ?_⟩
  rw [decrypt_eq_unwrap, hwrap]
  apply cbc_unwrap_wrap_ne _ _ _ _ _ hb hb2
  intro heq
  exact hne (kekOf_inj hdr password2 password heq)

/-- PBE descriptor for the C8 witness (AES-256-CBC wrap). -/
def C8pbe : PBEHeader :=
  ⟨1, KDFScheme.PBKDF2SHA256, KDFParameters.PBKDF2SHA256Parameters 2000 [4, 4],
    PBEScheme.AES256CBC, List.replicate 16 1⟩

/-- The 32-byte plaintext key wrapped in the C8 witness header. -/
def C8plain : List Nat := List.replicate 32 5

/-- Witness header: a 32-byte key wrapped under passphrase `[1]`. -/
def C8hdr : EncryptionHeader :=
  ⟨2, C8pbe, EncryptionAlgorithm.AES256GCMSIV,
    wrap_key (derive_kek 32 2000 [4, 4] [1]) (List.replicate 16 1) C8plain,
    List.replicate 12 0⟩

/-- C8 (witness): the statement instantiated at the witness header with the
wrong passphrase `[2]` (wrapped under `[1]`). -/
theorem C8_unwrap_deterministic_and_wrong_passphrase_fails_witness :
    C8hdr.decrypt_encryption_key [2] = C8hdr.decrypt_encryption_key [2] ∧
    C8hdr.decrypt_encryption_key [2] = Except.error ZffError.decryptionError :=
  C8_unwrap_deterministic_and_wrong_passphrase_fails C8hdr C8hdr [1] [2] C8plain
    rfl rfl (by decide) (by decide) (by decide) (by decide)

/-! ## Claim C7 -/

/-- C7 (confirmed): `EncryptionHeader::decode_content` maps algorithm byte 0
to AES-128-GCM-SIV and 1 to AES-256-GCM-SIV, and fails with the
unknown-encryption-algorithm decode error for every other algorithm byte —
an unknown code is never coerced to a default variant. -/
theorem C7_unknown_encryption_algorithm_rejected
    (data r1 r2 r3 r4 r5 r6 key nonce : List Nat) (v b klen : Nat)
    (pbe : PBEHeader)
    (h1 : decode_u8 data = Except.ok (v, r1))
    (h2 : PBEHeader.decode_directly r1 = Except.ok (pbe, r2))
    (h3 : decode_u8 r2 = Except.ok (b, r3))
    (h4 : decode_u32_le r3 = Except.ok (klen, r4))
    (h5 : read_bytes klen r4 = Except.ok (key, r5))
    (h6 : read_bytes 12 r5 = Except.ok (nonce, r6)) :
    (b ≠ 0 → b ≠ 1 → EncryptionHeader.decode_content data = Except.error
      (ZffError.headerDecodeError ERROR_HEADER_DECODER_UNKNOWN_ENCRYPTION_ALGORITHM)) ∧
    (b = 0 → EncryptionHeader.decode_content data = Except.ok
      (EncryptionHeader.new v pbe EncryptionAlgorithm.AES128GCMSIV key nonce)) ∧
    (b = 1 → EncryptionHeader.decode_content data = Except.ok
      (EncryptionHeader.new v pbe EncryptionAlgorithm.AES256GCMSIV key nonce)) := by
  refine ⟨?_, ?_, ?_⟩
  · intro hb0 hb1
    simp only [EncryptionHeader.decode_content, h1, h2, h3, except_bind_ok]
    cases b with
    | zero => exact absurd rfl hb0
    | succ b1 =>
      cases b1 with
      | zero => exact absurd rfl hb1
      | succ b2 => rfl
  · intro hb
    subst hb
    simp only [EncryptionHeader.decode_content, h1, h2, h3, except_bind_ok, h4,
      h5, h6]
  · intro hb
    subst hb
    simp only [EncryptionHeader.decode_content, h1, h2, h3, except_bind_ok, h4,
      h5, h6]

/-- Concrete PBE-header bytes for the C7 witness (body: version 1, KDF code
0, PBE scheme code 0, 1000 iterations, 2-byte salt `[9, 9]`, 16-byte IV). -/
def C7pbeBytes : List Nat :=
  beBytes32 HEADER_IDENTIFIER_PBE_HEADER ++ leBytes 8 29 ++ [1, 0, 0] ++
    leBytes 4 1000 ++ leBytes 4 2 ++ [9, 9] ++ List.replicate 16 0

/-- The PBE header those bytes decode to. -/
def C7pbe : PBEHeader :=
  ⟨1, KDFScheme.PBKDF2SHA256, KDFParameters.PBKDF2SHA256Parameters 1000 [9, 9],
    PBEScheme.AES128CBC, List.replicate 16 0⟩

/-- Bytes following the algorithm byte in the C7 witness body: a 16-byte
length-prefixed wrapped key and the 12-byte header nonce. -/
def C7tail : List Nat := leBytes 4 16 ++ List.replicate 16 7 ++ List.replicate 12 1

/-- A full encryption-header body whose algorithm byte is 2 (unknown). -/
def C7data : List Nat := [2] ++ C7pbeBytes ++ [2] ++ C7tail

/-- C7 (witness): the statement instantiated at a body with algorithm
byte 2 — the decode fails with the unknown-encryption-algorithm error. -/
theorem C7_unknown_encryption_algorithm_rejected_witness :
    ((2 : Nat) ≠ 0 → (2 : Nat) ≠ 1 →
      EncryptionHeader.decode_content C7data = Except.error
        (ZffError.headerDecodeError ERROR_HEADER_DECODER_UNKNOWN_ENCRYPTION_ALGORITHM)) ∧
    ((2 : Nat) = 0 → EncryptionHeader.decode_content C7data = Except.ok
      (EncryptionHeader.new 2 C7pbe EncryptionAlgorithm.AES128GCMSIV
        (List.replicate 16 7) (List.replicate 12 1))) ∧
    ((2 : Nat) = 1 → EncryptionHeader.decode_content C7data = Except.ok
      (EncryptionHeader.new 2 C7pbe EncryptionAlgorithm.AES256GCMSIV
        (List.replicate 16 7) (List.replicate 12 1))) :=
  C7_unknown_encryption_algorithm_rejected C7data
    (C7pbeBytes ++ [2] ++ C7tail) ([2] ++ C7tail)
    C7tail (List.replicate 16 7 ++ List.replicate 12 1) (List.replicate 12 1) []
    (List.replicate 16 7) (List.replicate 12 1) 2 2 16 C7pbe
    (by decide) (by decide) (by decide) (by decide) (by decide) (by decide)

end Zff
